import Mathlib

/-!
# Verification of the `fang` background-job queue core

Shallow embedding of the Rust sources under `src/` (queue.rs, executor.rs,
scheduler.rs) and proofs about the frozen claims.

Modelling conventions:
* a database table is a `List` of rows; an UPDATE by primary key maps over the
  list; an INSERT appends (server-generated defaults — `id`, `created_at`,
  `updated_at`, `state = new`, `scheduled_at = null` — are made explicit
  parameters / fields);
* timestamps (`DateTime<Utc>`) are `Int` (seconds); UUIDs are `Nat`;
* a serialized job (`serde_json::Value` produced by `serde_json::to_value`)
  is an opaque `String`; a `dyn Runnable` job is abstracted by exactly the two
  things the queue reads from it: its serialization and its `task_type()`;
* row-level locks held by other sessions (`FOR UPDATE SKIP LOCKED`) are
  modelled by a predicate `locked : Nat → Bool` on row ids;
* the possibility that the database refuses a statement with an error is
  modelled by an explicit boolean fault oracle where a claim depends on it;
* diesel's `Connection::transaction` commits the new state on `Ok` and rolls
  back to the incoming state on `Err`, which `transaction` below mirrors;
* Rust `u64` is modelled by `Nat` (the claims about `SleepParams` concern
  small second counts, far from the wrap-around).
-/

namespace Fang

/-- The `FangTaskState` enum from schema: `new`, `in_progress`, `finished`, `failed`. -/
inductive FangTaskState where
  | New
  | InProgress
  | Finished
  | Failed
deriving DecidableEq, Repr

/-- A row of `fang_tasks` (struct `Task` in queue.rs). -/
structure Task where
  id : Nat
  metadata : String
  error_message : Option String
  state : FangTaskState
  task_type : String
  created_at : Int
  updated_at : Int
deriving DecidableEq, Repr

/-- A row of `fang_periodic_tasks` (struct `PeriodicTask` in queue.rs). -/
structure PeriodicTask where
  id : Nat
  metadata : String
  period_in_seconds : Int
  scheduled_at : Option Int
  created_at : Int
  updated_at : Int
deriving DecidableEq, Repr

/-- A `dyn Runnable` job, abstracted by what the queue reads from it:
`serde_json::to_value(job)` (field `metadata`) and `job.task_type()`. -/
structure Job where
  metadata : String
  task_type : String
deriving DecidableEq, Repr

/-- Database errors surfaced by diesel (`diesel::result::Error`); we only
distinguish `NotFound` (no row matched) from the rest. -/
inductive DbError where
  | notFound
  | other
deriving DecidableEq, Repr

/-- Does a task match the executor's optional `task_type` filter?
`None` matches everything (`fetch_any_task_query`); `Some s` requires
`task_type = s` (`fetch_task_of_type_query`). -/
def typeMatches (task_type : Option String) (t : Task) : Bool :=
  match task_type with
  | none => true
  | some s => t.task_type = s

/-- Candidate rows of the claim SQL: `state = New`, matching the optional type
filter, and not locked by another session (`SKIP LOCKED`). -/
def fetchCandidate (task_type : Option String) (locked : Nat → Bool) (t : Task) : Bool :=
  t.state = FangTaskState.New && typeMatches task_type t && !locked t.id

/-- The row `ORDER BY created_at ASC LIMIT 1` keeps when both are candidates:
the one with the smaller `created_at` (first wins ties, matching a stable scan). -/
def olderTask (a b : Task) : Task :=
  if b.created_at < a.created_at then b else a

/-- The `ORDER BY created_at ASC LIMIT 1` over a list of rows. -/
def oldestTask : List Task → Option Task
  | [] => none
  | t :: ts => some (ts.foldl olderTask t)

/-- The `fetch_any_task_query` / `fetch_task_of_type_query` (queue.rs 360-381):
`SELECT … WHERE state = 'new' [AND task_type = ?] ORDER BY created_at ASC
LIMIT 1 FOR UPDATE SKIP LOCKED`, with locks of other sessions given by `locked`. -/
def fetch_task_query (task_type : Option String) (locked : Nat → Bool)
    (table : List Task) : Option Task :=
  oldestTask (table.filter (fetchCandidate task_type locked))

/-- Row transformer of `start_processing_task_query` (queue.rs 315-325):
`SET state = 'in_progress', updated_at = now()`. -/
def startRow (now : Int) (t : Task) : Task :=
  { t with state := FangTaskState.InProgress, updated_at := now }

/-- Row transformer of `finish_task_query` (queue.rs 302-309):
`SET state = 'finished', updated_at = now()`. -/
def finishRow (now : Int) (t : Task) : Task :=
  { t with state := FangTaskState.Finished, updated_at := now }

/-- Row transformer of `fail_task_query` (queue.rs 331-343):
`SET state = 'failed', error_message = ?, updated_at = now()`. -/
def failRow (now : Int) (error : String) (t : Task) : Task :=
  { t with state := FangTaskState.Failed, error_message := some error,
           updated_at := now }

/-- The `diesel::update(task).set(f)`: update the row whose primary key equals
`t.id`, returning the updated row (`get_result`), or `NotFound` if no row has
that id. `dbFault` models the database refusing the UPDATE with an error. -/
def updateById (dbFault : Bool) (f : Task → Task) (t : Task) (table : List Task) :
    Except DbError (Task × List Task) :=
  if dbFault then .error .other
  else
    match table.find? (fun u => u.id = t.id) with
    | none => .error .notFound
    | some u => .ok (f u, table.map (fun v => if v.id = t.id then f v else v))

/-- The `start_processing_task_query` (queue.rs 315-325) acting on the table. -/
def start_processing_task_query (dbFault : Bool) (now : Int) (t : Task)
    (table : List Task) : Except DbError (Task × List Task) :=
  updateById dbFault (startRow now) t table

/-- The `finish_task_query` (queue.rs 302-309) acting on the table. -/
def finish_task_query (dbFault : Bool) (now : Int) (t : Task)
    (table : List Task) : Except DbError (Task × List Task) :=
  updateById dbFault (finishRow now) t table

/-- The `fail_task_query` (queue.rs 331-343) acting on the table. -/
def fail_task_query (dbFault : Bool) (now : Int) (t : Task) (error : String)
    (table : List Task) : Except DbError (Task × List Task) :=
  updateById dbFault (failRow now error) t table

/-- The `Connection::transaction`: run the body on the current state; commit the
new state on `Ok`, roll the state back on `Err`. -/
def transaction (table : List Task)
    (body : List Task → Except DbError (α × List Task)) :
    Except DbError α × List Task :=
  match body table with
  | .ok (a, table') => (.ok a, table')
  | .error e => (.error e, table)

/-- The `fetch_and_touch_query` (queue.rs 180-196): in one transaction, fetch a
task; if none, `Ok(None)`; else transition it to `InProgress` and return the
updated row, propagating an update error (which rolls the transaction back). -/
def fetch_and_touch_query (dbFault : Bool) (now : Int) (task_type : Option String)
    (locked : Nat → Bool) (table : List Task) :
    Except DbError (Option Task) × List Task :=
  transaction table (fun tbl =>
    match fetch_task_query task_type locked tbl with
    | none => .ok (none, tbl)
    | some t =>
      match start_processing_task_query dbFault now t tbl with
      | .ok (t', tbl') => .ok (some t', tbl')
      | .error e => .error e)

/-- The `insert_query` (queue.rs 159-163): INSERT of a `NewTask {metadata,
task_type}`; the server fills `id` (fresh uuid), `state = 'new'`,
`error_message = null`, `created_at = updated_at = now()`. -/
def insertRow (now : Int) (freshId : Nat) (metadata task_type : String) : Task :=
  { id := freshId, metadata := metadata, error_message := none,
    state := FangTaskState.New, task_type := task_type,
    created_at := now, updated_at := now }

/-- The `insert_query` acting on the table: append the new row, return it. -/
def insert_query (now : Int) (freshId : Nat) (metadata task_type : String)
    (table : List Task) : Task × List Task :=
  let r := insertRow now freshId metadata task_type
  (r, table ++ [r])

/-- The `find_task_by_metadata_query` (queue.rs 393-406): first row with equal
`metadata` and `state ∈ {New, InProgress}`. -/
def find_task_by_metadata_query (metadata : String) (table : List Task) :
    Option Task :=
  table.find? (fun t =>
    t.metadata = metadata &&
    (t.state = FangTaskState.New || t.state = FangTaskState.InProgress))

/-- The `push_task_query` (queue.rs 106-119): serialize the job; if a live row with
that metadata exists return it, else insert a fresh `New` row. -/
def push_task_query (now : Int) (freshId : Nat) (job : Job) (table : List Task) :
    Task × List Task :=
  let json_job := job.metadata
  match find_task_by_metadata_query json_job table with
  | some task => (task, table)
  | none => insert_query now freshId json_job job.task_type table

/-- The `find_periodic_task_by_metadata_query` (queue.rs 383-391): first periodic
row with equal `metadata` (no state scoping — periodic rows have no state). -/
def find_periodic_task_by_metadata_query (metadata : String)
    (table : List PeriodicTask) : Option PeriodicTask :=
  table.find? (fun t => t.metadata = metadata)

/-- INSERT of a `NewPeriodicTask {metadata, period_in_seconds}`; server fills
`id`, `scheduled_at = null`, `created_at = updated_at = now()`. -/
def insertPeriodicRow (now : Int) (freshId : Nat) (metadata : String)
    (period : Int) : PeriodicTask :=
  { id := freshId, metadata := metadata, period_in_seconds := period,
    scheduled_at := none, created_at := now, updated_at := now }

/-- The `push_periodic_task_query` (queue.rs 129-149): if a periodic row with the
job's serialization exists return it, else insert one with the given period. -/
def push_periodic_task_query (now : Int) (freshId : Nat) (job : Job)
    (period : Int) (table : List PeriodicTask) :
    PeriodicTask × List PeriodicTask :=
  let json_job := job.metadata
  match find_periodic_task_by_metadata_query json_job table with
  | some task => (task, table)
  | none =>
    let r := insertPeriodicRow now freshId json_job period
    (r, table ++ [r])

/-- Does a periodic row pass the `fetch_periodic_tasks_query` filter
(queue.rs 227-245)? The SQL is `(scheduled_at > now - margin AND
scheduled_at < now + margin) OR scheduled_at IS NULL` — strict comparisons. -/
def periodicDue (now margin : Int) (t : PeriodicTask) : Bool :=
  match t.scheduled_at with
  | some s => now - margin < s && s < now + margin
  | none => true

/-- The `fetch_periodic_tasks_query` (queue.rs 227-245). -/
def fetch_periodic_tasks_query (now margin : Int) (table : List PeriodicTask) :
    List PeriodicTask :=
  table.filter (periodicDue now margin)

/-- Row transformer of `schedule_next_task_execution` (queue.rs 247-257):
`SET scheduled_at = now + period_in_seconds, updated_at = now`. -/
def scheduleNextRow (now : Int) (t : PeriodicTask) : PeriodicTask :=
  { t with scheduled_at := some (now + t.period_in_seconds), updated_at := now }

/-- The `schedule_next_task_execution` acting on the table (update by id,
returning the updated row). -/
def schedule_next_task_execution (now : Int) (t : PeriodicTask)
    (table : List PeriodicTask) : PeriodicTask × List PeriodicTask :=
  (scheduleNextRow now t, table.map (fun v => if v.id = t.id then scheduleNextRow now v else v))

/-! ## Executor (executor.rs) -/

/-- The `SleepParams` (executor.rs 30-35); `u64` seconds modelled as `Nat`. -/
structure SleepParams where
  sleep_period : Nat
  max_sleep_period : Nat
  min_sleep_period : Nat
  sleep_step : Nat
deriving DecidableEq, Repr

/-- The `SleepParams::default()` (executor.rs 51-60). -/
def SleepParams.default : SleepParams :=
  { sleep_period := 5, max_sleep_period := 15, min_sleep_period := 5, sleep_step := 5 }

/-- The `maybe_reset_sleep_period` (executor.rs 38-42). -/
def maybe_reset_sleep_period (p : SleepParams) : SleepParams :=
  if p.sleep_period ≠ p.min_sleep_period then
    { p with sleep_period := p.min_sleep_period }
  else p

/-- The `maybe_increase_sleep_period` (executor.rs 44-48): the increment is applied
whenever `sleep_period < max_sleep_period`, with no clamping of the sum. -/
def maybe_increase_sleep_period (p : SleepParams) : SleepParams :=
  if p.sleep_period < p.max_sleep_period then
    { p with sleep_period := p.sleep_period + p.sleep_step }
  else p

/-- The `Executor::sleep` (executor.rs 167-171): first grow the back-off, then
sleep for the (already updated) `sleep_period`. Returns the seconds slept
alongside the new params. -/
def executorSleep (p : SleepParams) : Nat × SleepParams :=
  let p' := maybe_increase_sleep_period p
  (p'.sleep_period, p')

/-- Outcome of one `run_task` call (executor.rs 155-161), abstracting the
database and the job body:
* `fetchedOk`: `fetch_and_touch` returned a task and `run` (execute +
  finalize) succeeded, so `run_task` returns `Ok(Some(task))`;
* `fetchedRunFailed`: `fetch_and_touch` returned a task but the job's `run`
  failed, so `self.run(task)?` propagates `Err(TaskError)`;
* `noTask`: `fetch_and_touch` returned `Ok(None)`;
* `fetchDbError`: `fetch_and_touch` returned a database error, mapped to
  `Err(DbError)`. -/
inductive FetchOutcome where
  | fetchedOk
  | fetchedRunFailed
  | noTask
  | fetchDbError
deriving DecidableEq, Repr

/-- The three-way result of `run_task` as matched by `run_tasks`
(executor.rs 140-151). -/
inductive RunTaskResult where
  | okSome
  | okNone
  | err
deriving DecidableEq, Repr

/-- The `run_task` (executor.rs 155-161): a fetched task is always run
(`if let Ok(Some(ref task)) = result { self.run(task.clone())?; }`);
a failing run turns the result into `Err`. -/
def run_task (o : FetchOutcome) : RunTaskResult :=
  match o with
  | .fetchedOk => .okSome
  | .fetchedRunFailed => .err
  | .noTask => .okNone
  | .fetchDbError => .err

/-- Was `run(task)` invoked during `run_task`? It is exactly when
`fetch_and_touch` returned a task. -/
def runInvoked (o : FetchOutcome) : Bool :=
  match o with
  | .fetchedOk => true
  | .fetchedRunFailed => true
  | .noTask => false
  | .fetchDbError => false

/-- One iteration of the `run_tasks` loop body (executor.rs 140-151):
`Ok(Some _)` resets the back-off and does not sleep; `Ok(None)` and `Err _`
call `sleep` (which grows the back-off first, then sleeps). Returns the new
`SleepParams` and how many seconds the iteration slept (`none` = no sleep). -/
def run_tasks_iteration (o : FetchOutcome) (p : SleepParams) :
    SleepParams × Option Nat :=
  match run_task o with
  | .okSome => (maybe_reset_sleep_period p, none)
  | .okNone =>
    let (d, p') := executorSleep p
    (p', some d)
  | .err =>
    let (d, p') := executorSleep p
    (p', some d)

/-- The `K` consecutive unproductive iterations (each calling `sleep`, i.e.
`maybe_increase_sleep_period`). -/
def unproductiveIters (p : SleepParams) : Nat → SleepParams
  | 0 => p
  | k + 1 => unproductiveIters (maybe_increase_sleep_period p) k

/-! ## Scheduler (scheduler.rs) -/

/-- The `Scheduler::process_task` (scheduler.rs 85-99) acting on the one-shot
table and the periodic table. `deser` is the job registry's deserializer
(`serde_json::from_value`), abstracted as a function from the stored metadata
to the job value that `push_task` then re-serializes. If `scheduled_at` is
null, only `schedule_next_task_execution` runs; otherwise the deserialized job
is pushed as a one-shot task and then the row is advanced. -/
def process_task (deser : String → Job) (now : Int) (freshId : Nat)
    (taskTable : List Task) (periodicTable : List PeriodicTask)
    (t : PeriodicTask) : List Task × List PeriodicTask :=
  match t.scheduled_at with
  | none =>
    (taskTable, (schedule_next_task_execution now t periodicTable).2)
  | some _ =>
    let actual_task := deser t.metadata
    let (_, taskTable') := push_task_query now freshId actual_task taskTable
    (taskTable', (schedule_next_task_execution now t periodicTable).2)

/-! ## Helper lemmas -/

theorem foldl_olderTask_mem (ts : List Task) (t : Task) :
    ts.foldl olderTask t = t ∨ ts.foldl olderTask t ∈ ts := by
  induction ts generalizing t with
  | nil => left; rfl
  | cons u us ih =>
    simp only [List.foldl_cons]
    rcases ih (olderTask t u) with h | h
    · rw [h]
      unfold olderTask
      split
      · right; exact List.mem_cons_self u us
      · left; rfl
    · right; exact List.mem_cons_of_mem u h

theorem foldl_olderTask_le (ts : List Task) (t : Task) :
    (ts.foldl olderTask t).created_at ≤ t.created_at ∧
    ∀ u ∈ ts, (ts.foldl olderTask t).created_at ≤ u.created_at := by
  induction ts generalizing t with
  | nil => exact ⟨le_refl _, by intro u hu; cases hu⟩
  | cons u us ih =>
    simp only [List.foldl_cons]
    obtain ⟨h1, h2⟩ := ih (olderTask t u)
    have ht : (olderTask t u).created_at ≤ t.created_at ∧
        (olderTask t u).created_at ≤ u.created_at := by
      unfold olderTask
      split
      · constructor
        · omega
        · exact le_refl _
      · constructor
        · exact le_refl _
        · omega
    refine ⟨le_trans h1 ht.1, ?_⟩
    intro v hv
    rcases List.mem_cons.1 hv with rfl | hv
    · exact le_trans h1 ht.2
    · exact h2 v hv

theorem oldestTask_mem {l : List Task} {m : Task} (h : oldestTask l = some m) :
    m ∈ l := by
  cases l with
  | nil => cases h
  | cons t ts =>
    simp only [oldestTask, Option.some.injEq] at h
    subst h
    rcases foldl_olderTask_mem ts t with h | h
    · rw [h]; exact List.mem_cons_self t ts
    · exact List.mem_cons_of_mem t h

theorem oldestTask_min {l : List Task} {m : Task} (h : oldestTask l = some m) :
    ∀ u ∈ l, m.created_at ≤ u.created_at := by
  cases l with
  | nil => cases h
  | cons t ts =>
    simp only [oldestTask, Option.some.injEq] at h
    subst h
    intro u hu
    obtain ⟨h1, h2⟩ := foldl_olderTask_le ts t
    rcases List.mem_cons.1 hu with rfl | hu
    · exact h1
    · exact h2 u hu

theorem oldestTask_eq_none {l : List Task} : oldestTask l = none ↔ l = [] := by
  cases l with
  | nil => simp [oldestTask]
  | cons t ts => simp [oldestTask]

/-- Unpack membership in the candidate filter. -/
theorem fetchCandidate_iff (task_type : Option String) (locked : Nat → Bool)
    (t : Task) :
    fetchCandidate task_type locked t = true ↔
      t.state = FangTaskState.New ∧ typeMatches task_type t = true ∧
      locked t.id = false := by
  simp only [fetchCandidate, Bool.and_eq_true, Bool.not_eq_true',
    decide_eq_true_eq]
  tauto

/-- C2 — `fetch_task` returns the oldest `created_at` among rows whose
state is `New` (and whose `task_type` equals the filter when one is given),
skipping rows locked by other sessions, and returns none exactly when no such
row exists. -/
theorem fetch_task_query_spec (task_type : Option String) (locked : Nat → Bool)
    (table : List Task) :
    (∀ t, fetch_task_query task_type locked table = some t →
      t ∈ table ∧ t.state = FangTaskState.New ∧ typeMatches task_type t = true ∧
      locked t.id = false ∧
      ∀ u ∈ table, u.state = FangTaskState.New → typeMatches task_type u = true →
        locked u.id = false → t.created_at ≤ u.created_at) ∧
    (fetch_task_query task_type locked table = none ↔
      ∀ u ∈ table, ¬(u.state = FangTaskState.New ∧
        typeMatches task_type u = true ∧ locked u.id = false)) := by
  constructor
  · intro t ht
    have hmem : t ∈ table.filter (fetchCandidate task_type locked) :=
      oldestTask_mem ht
    have hc := List.mem_filter.1 hmem
    have hcand := (fetchCandidate_iff task_type locked t).1 hc.2
    refine ⟨hc.1, hcand.1, hcand.2.1, hcand.2.2, ?_⟩
    intro u hu h1 h2 h3
    have humem : u ∈ table.filter (fetchCandidate task_type locked) :=
      List.mem_filter.2 ⟨hu, (fetchCandidate_iff task_type locked u).2 ⟨h1, h2, h3⟩⟩
    exact oldestTask_min ht u humem
  · unfold fetch_task_query
    rw [oldestTask_eq_none, List.filter_eq_nil_iff]
    constructor
    · intro h u hu hc
      exact h u hu ((fetchCandidate_iff task_type locked u).2 hc)
    · intro h u hu hc
      exact h u hu ((fetchCandidate_iff task_type locked u).1 hc)

/-- Witness for C2 at a concrete two-row table: the younger-`created_at` row
is fetched and its `created_at` is minimal. -/
theorem fetch_task_query_spec_witness :
    fetch_task_query none (fun _ => false)
      [⟨1, "a", none, FangTaskState.New, "common", 5, 5⟩,
       ⟨2, "b", none, FangTaskState.New, "common", 3, 3⟩] =
      some ⟨2, "b", none, FangTaskState.New, "common", 3, 3⟩ ∧
    (3 : Int) ≤ 5 := by
  refine ⟨by decide, ?_⟩
  exact ((fetch_task_query_spec none (fun _ => false)
      [⟨1, "a", none, FangTaskState.New, "common", 5, 5⟩,
       ⟨2, "b", none, FangTaskState.New, "common", 3, 3⟩]).1
      ⟨2, "b", none, FangTaskState.New, "common", 3, 3⟩ (by decide)).2.2.2.2
      ⟨1, "a", none, FangTaskState.New, "common", 5, 5⟩ (by simp) (by decide)
      (by decide) (by decide)

/-- With unique primary keys, looking a member row up by its id finds it. -/
theorem find?_id_eq_of_nodup {table : List Task} {t : Task}
    (hids : (table.map Task.id).Nodup) (hmem : t ∈ table) :
    table.find? (fun u => u.id = t.id) = some t := by
  induction table with
  | nil => cases hmem
  | cons u us ih =>
    simp only [List.map_cons, List.nodup_cons] at hids
    rcases List.mem_cons.1 hmem with rfl | hmem
    · simp [List.find?]
    · simp only [List.find?_cons]
      by_cases hc : u.id = t.id
      · exact absurd (hc ▸ List.mem_map_of_mem Task.id hmem) hids.1
      · simp only [decide_eq_false hc]
        exact ih hids.2 hmem

/-- C1 — `fetch_and_touch` is a single transaction over the fetch and the
state update: when `fetch_task` returns a row and the UPDATE succeeds, that
row is transitioned to `InProgress` with `updated_at` bumped and the updated
row is returned; when the UPDATE fails with a database error the transaction
rolls back, leaving the table (hence the row's state) unchanged; when no row
matches, it returns none and the table is unchanged. -/
theorem fetch_and_touch_query_spec (dbFault : Bool) (now : Int)
    (task_type : Option String) (locked : Nat → Bool) (table : List Task)
    (hids : (table.map Task.id).Nodup) :
    (∀ t, fetch_task_query task_type locked table = some t →
      (dbFault = false →
        fetch_and_touch_query dbFault now task_type locked table =
          (Except.ok (some (startRow now t)),
           table.map (fun v => if v.id = t.id then startRow now v else v)) ∧
        (startRow now t).state = FangTaskState.InProgress ∧
        (startRow now t).updated_at = now) ∧
      (dbFault = true →
        fetch_and_touch_query dbFault now task_type locked table =
          (Except.error DbError.other, table))) ∧
    (fetch_task_query task_type locked table = none →
      fetch_and_touch_query dbFault now task_type locked table =
        (Except.ok none, table)) := by
  constructor
  · intro t ht
    have hmem : t ∈ table := (List.mem_filter.1 (oldestTask_mem ht)).1
    have hfind := find?_id_eq_of_nodup hids hmem
    constructor
    · intro hdb
      subst hdb
      refine ⟨?_, rfl, rfl⟩
      simp [fetch_and_touch_query, transaction, ht,
        start_processing_task_query, updateById, hfind]
    · intro hdb
      subst hdb
      simp [fetch_and_touch_query, transaction, ht,
        start_processing_task_query, updateById]
  · intro hnone
    simp [fetch_and_touch_query, transaction, hnone]

/-- Witness for C1 at a one-row table: the `New` row is fetched, marked
`InProgress` in place on success, and left `New` when the UPDATE faults. -/
theorem fetch_and_touch_query_spec_witness :
    fetch_and_touch_query false 9 none (fun _ => false)
      [⟨1, "a", none, FangTaskState.New, "common", 0, 0⟩] =
      (Except.ok (some ⟨1, "a", none, FangTaskState.InProgress, "common", 0, 9⟩),
       [⟨1, "a", none, FangTaskState.InProgress, "common", 0, 9⟩]) ∧
    fetch_and_touch_query true 9 none (fun _ => false)
      [⟨1, "a", none, FangTaskState.New, "common", 0, 0⟩] =
      (Except.error DbError.other,
       [⟨1, "a", none, FangTaskState.New, "common", 0, 0⟩]) := by
  constructor
  · have h := ((fetch_and_touch_query_spec false 9 none (fun _ => false)
      [⟨1, "a", none, FangTaskState.New, "common", 0, 0⟩] (by decide)).1
      ⟨1, "a", none, FangTaskState.New, "common", 0, 0⟩ (by decide)).1 rfl
    exact h.1.trans rfl
  · exact ((fetch_and_touch_query_spec true 9 none (fun _ => false)
      [⟨1, "a", none, FangTaskState.New, "common", 0, 0⟩] (by decide)).1
      ⟨1, "a", none, FangTaskState.New, "common", 0, 0⟩ (by decide)).2 rfl

/-- C3 — `push_task` is idempotent scoped to live rows: when a row with
the job's serialization exists in state `New` or `InProgress` it is returned
and nothing is inserted; when every row with that metadata is `Finished` or
`Failed` (in particular when there is none), a fresh `New` row is inserted and
returned. -/
theorem push_task_query_spec (now : Int) (freshId : Nat) (job : Job)
    (table : List Task) :
    (∀ t, find_task_by_metadata_query job.metadata table = some t →
      push_task_query now freshId job table = (t, table) ∧
      t ∈ table ∧ t.metadata = job.metadata ∧
      (t.state = FangTaskState.New ∨ t.state = FangTaskState.InProgress)) ∧
    ((∀ t ∈ table, t.metadata = job.metadata →
        t.state = FangTaskState.Finished ∨ t.state = FangTaskState.Failed) →
      push_task_query now freshId job table =
        (insertRow now freshId job.metadata job.task_type,
         table ++ [insertRow now freshId job.metadata job.task_type]) ∧
      (insertRow now freshId job.metadata job.task_type).state =
        FangTaskState.New) := by
  constructor
  · intro t ht
    have hmem := List.mem_of_find?_eq_some ht
    have hp := List.find?_some ht
    simp only [Bool.and_eq_true, Bool.or_eq_true, decide_eq_true_eq] at hp
    exact ⟨by simp [push_task_query, ht], hmem, hp.1, hp.2⟩
  · intro hterm
    have hnone : find_task_by_metadata_query job.metadata table = none := by
      apply List.find?_eq_none.2
      intro t hmem hp
      simp only [Bool.and_eq_true, Bool.or_eq_true, decide_eq_true_eq] at hp
      rcases hterm t hmem hp.1 with h | h <;> rcases hp.2 with h2 | h2 <;>
        rw [h] at h2 <;> cases h2
    exact ⟨by simp [push_task_query, hnone, insert_query], rfl⟩

/-- Witness for C3: pushing against a table whose only metadata-match is
`Failed` inserts a fresh `New` row; pushing against the result returns the
live row unchanged. -/
theorem push_task_query_spec_witness :
    push_task_query 7 42 ⟨"j", "common"⟩
      [⟨1, "j", some "boom", FangTaskState.Failed, "common", 0, 0⟩] =
      (⟨42, "j", none, FangTaskState.New, "common", 7, 7⟩,
       [⟨1, "j", some "boom", FangTaskState.Failed, "common", 0, 0⟩,
        ⟨42, "j", none, FangTaskState.New, "common", 7, 7⟩]) ∧
    push_task_query 8 43 ⟨"j", "common"⟩
      [⟨1, "j", some "boom", FangTaskState.Failed, "common", 0, 0⟩,
       ⟨42, "j", none, FangTaskState.New, "common", 7, 7⟩] =
      (⟨42, "j", none, FangTaskState.New, "common", 7, 7⟩,
       [⟨1, "j", some "boom", FangTaskState.Failed, "common", 0, 0⟩,
        ⟨42, "j", none, FangTaskState.New, "common", 7, 7⟩]) := by
  constructor
  · exact ((push_task_query_spec 7 42 ⟨"j", "common"⟩
      [⟨1, "j", some "boom", FangTaskState.Failed, "common", 0, 0⟩]).2
      (by decide)).1
  · exact ((push_task_query_spec 8 43 ⟨"j", "common"⟩
      [⟨1, "j", some "boom", FangTaskState.Failed, "common", 0, 0⟩,
       ⟨42, "j", none, FangTaskState.New, "common", 7, 7⟩]).1
      ⟨42, "j", none, FangTaskState.New, "common", 7, 7⟩ (by decide)).1

/-- C4 counterexample — the SQL comparisons are strict (`gt`/`lt`), so a
periodic row whose `scheduled_at` is exactly `now - margin` (here 90 = 100 - 10)
lies in the claim's closed interval yet is not returned. -/
theorem fetch_periodic_tasks_boundary_counterexample :
    (100 : Int) - 10 ≤ 90 ∧ (90 : Int) ≤ 100 + 10 ∧
    fetch_periodic_tasks_query 100 10 [⟨1, "p", 60, some 90, 0, 0⟩] = [] := by
  decide

/-- C4 (amended) — `fetch_periodic_tasks` returns exactly the periodic rows
whose `scheduled_at` lies in the OPEN interval `(now - margin, now + margin)`
or is null; rows with `scheduled_at` exactly at `now - margin` or
`now + margin` are excluded. -/
theorem fetch_periodic_tasks_query_spec (now margin : Int)
    (table : List PeriodicTask) (t : PeriodicTask) :
    t ∈ fetch_periodic_tasks_query now margin table ↔
      t ∈ table ∧
      (∀ s, t.scheduled_at = some s → now - margin < s ∧ s < now + margin) := by
  unfold fetch_periodic_tasks_query
  rw [List.mem_filter]
  constructor
  · rintro ⟨hmem, hdue⟩
    refine ⟨hmem, ?_⟩
    intro s hs
    unfold periodicDue at hdue
    rw [hs] at hdue
    simp only [Bool.and_eq_true, decide_eq_true_eq] at hdue
    exact hdue
  · rintro ⟨hmem, hdue⟩
    refine ⟨hmem, ?_⟩
    unfold periodicDue
    cases hsched : t.scheduled_at with
    | none => rfl
    | some s =>
      simp only [Bool.and_eq_true, decide_eq_true_eq]
      exact hdue s hsched

/-- Witness for the amended C4: a row strictly inside the window is returned,
one exactly on the boundary is not, a null `scheduled_at` is returned. -/
theorem fetch_periodic_tasks_query_spec_witness :
    (⟨1, "p", 60, some 95, 0, 0⟩ : PeriodicTask) ∈
      fetch_periodic_tasks_query 100 10
        [⟨1, "p", 60, some 95, 0, 0⟩, ⟨2, "q", 60, some 110, 0, 0⟩,
         ⟨3, "r", 60, none, 0, 0⟩] ∧
    (⟨2, "q", 60, some 110, 0, 0⟩ : PeriodicTask) ∉
      fetch_periodic_tasks_query 100 10
        [⟨1, "p", 60, some 95, 0, 0⟩, ⟨2, "q", 60, some 110, 0, 0⟩,
         ⟨3, "r", 60, none, 0, 0⟩] ∧
    (⟨3, "r", 60, none, 0, 0⟩ : PeriodicTask) ∈
      fetch_periodic_tasks_query 100 10
        [⟨1, "p", 60, some 95, 0, 0⟩, ⟨2, "q", 60, some 110, 0, 0⟩,
         ⟨3, "r", 60, none, 0, 0⟩] := by
  refine ⟨?_, ?_, ?_⟩
  · apply (fetch_periodic_tasks_query_spec 100 10 _ _).2
    refine ⟨by simp, ?_⟩
    intro s hs
    injection hs with h
    subst h
    decide
  · intro hmem
    have h := ((fetch_periodic_tasks_query_spec 100 10 _ _).1 hmem).2 110 rfl
    omega
  · apply (fetch_periodic_tasks_query_spec 100 10 _ _).2
    refine ⟨by simp, ?_⟩
    intro s hs
    cases hs

/-- The retention invariant of C7: `error_message` is non-null iff
`state = Failed`. -/
def taskInv (t : Task) : Prop :=
  (t.error_message ≠ none) ↔ t.state = FangTaskState.Failed

instance (t : Task) : Decidable (taskInv t) := by
  unfold taskInv
  infer_instance

/-- C7 counterexample — a `Failed` row with an error message satisfies the
invariant, yet `finish_task` applied to it yields a `Finished` row that keeps
the non-null `error_message`, violating the invariant. -/
theorem finish_task_taskInv_counterexample :
    taskInv ⟨1, "m", some "boom", FangTaskState.Failed, "common", 0, 0⟩ ∧
    ¬ taskInv (finishRow 5 ⟨1, "m", some "boom", FangTaskState.Failed, "common", 0, 0⟩) ∧
    finish_task_query false 5
      ⟨1, "m", some "boom", FangTaskState.Failed, "common", 0, 0⟩
      [⟨1, "m", some "boom", FangTaskState.Failed, "common", 0, 0⟩] =
      Except.ok (⟨1, "m", some "boom", FangTaskState.Finished, "common", 0, 5⟩,
        [⟨1, "m", some "boom", FangTaskState.Finished, "common", 0, 5⟩]) := by
  exact ⟨by decide, by decide, rfl⟩

/-- C7 (amended) — the invariant `error_message ≠ null ↔ state = Failed`
holds after insert, is established by `fail_task` on any row, and is preserved
by `start_processing_task` and `finish_task` on rows whose state is not
`Failed` (the only rows those transitions are applied to in the lifecycle
`New → InProgress → {Finished, Failed}`); it is NOT preserved by `finish_task`
on a `Failed` row. -/
theorem taskInv_lifecycle :
    (∀ (now : Int) (freshId : Nat) (metadata task_type : String),
      taskInv (insertRow now freshId metadata task_type)) ∧
    (∀ (now : Int) (t : Task), taskInv t → t.state ≠ FangTaskState.Failed →
      taskInv (startRow now t) ∧ taskInv (finishRow now t)) ∧
    (∀ (now : Int) (error : String) (t : Task), taskInv (failRow now error t)) := by
  refine ⟨?_, ?_, ?_⟩
  · intro now freshId metadata task_type
    simp [taskInv, insertRow]
  · intro now t hinv hne
    have hmsg : t.error_message = none := by
      by_contra h
      exact hne (hinv.1 h)
    constructor
    · simp [taskInv, startRow, hmsg]
    · simp [taskInv, finishRow, hmsg]
  · intro now error t
    simp [taskInv, failRow]

/-- Witness for the amended C7 along a concrete lifecycle
`New → InProgress → Finished` and `InProgress → Failed`. -/
theorem taskInv_lifecycle_witness :
    taskInv (insertRow 0 1 "m" "common") ∧
    taskInv (startRow 3 ⟨1, "m", none, FangTaskState.New, "common", 0, 0⟩) ∧
    taskInv (finishRow 4 ⟨1, "m", none, FangTaskState.InProgress, "common", 0, 3⟩) ∧
    taskInv (failRow 4 "boom" ⟨1, "m", none, FangTaskState.InProgress, "common", 0, 3⟩) := by
  refine ⟨?_, ?_, ?_, ?_⟩
  · exact taskInv_lifecycle.1 0 1 "m" "common"
  · exact (taskInv_lifecycle.2.1 3
      ⟨1, "m", none, FangTaskState.New, "common", 0, 0⟩
      (by decide) (by decide)).1
  · exact (taskInv_lifecycle.2.1 4
      ⟨1, "m", none, FangTaskState.InProgress, "common", 0, 3⟩
      (by decide) (by decide)).2
  · exact taskInv_lifecycle.2.2 4 "boom"
      ⟨1, "m", none, FangTaskState.InProgress, "common", 0, 3⟩

/-- C8 counterexample — advancing a row whose `scheduled_at` (50) is
further in the future than `now + period` (0 + 10) rewrites `scheduled_at`
backwards, from 50 to 10; such a row is reachable by the scheduler, since with
`margin = 100` it passes the `fetch_periodic_tasks` filter at `now = 0`. -/
theorem schedule_next_monotonic_counterexample :
    (⟨7, "p", 10, some 50, 0, 0⟩ : PeriodicTask).scheduled_at = some 50 ∧
    periodicDue 0 100 ⟨7, "p", 10, some 50, 0, 0⟩ = true ∧
    (scheduleNextRow 0 ⟨7, "p", 10, some 50, 0, 0⟩).scheduled_at = some 10 ∧
    (10 : Int) < 50 := by
  decide

/-- C8 (amended) — each call to `schedule_next_task_execution` sets
`scheduled_at` to `now + period_in_seconds` and `updated_at` to `now`; the new
`scheduled_at` is no earlier than the previous non-null one provided the
previous one is at most `now + period`, which holds for every row the
scheduler fetched (at some earlier time `now0 ≤ now`) whenever
`margin ≤ period_in_seconds`. It can decrease when the previous
`scheduled_at` exceeds `now + period`. -/
theorem schedule_next_task_execution_spec (now : Int) (t : PeriodicTask)
    (table : List PeriodicTask) :
    (schedule_next_task_execution now t table).1 = scheduleNextRow now t ∧
    (scheduleNextRow now t).scheduled_at = some (now + t.period_in_seconds) ∧
    (scheduleNextRow now t).updated_at = now ∧
    (∀ prev, t.scheduled_at = some prev → prev ≤ now + t.period_in_seconds →
      ∀ s, (scheduleNextRow now t).scheduled_at = some s → prev ≤ s) ∧
    (∀ now0 margin prev, t.scheduled_at = some prev →
      periodicDue now0 margin t = true → margin ≤ t.period_in_seconds →
      now0 ≤ now → prev ≤ now + t.period_in_seconds) := by
  refine ⟨rfl, rfl, rfl, ?_, ?_⟩
  · intro prev hprev hle s hs
    simp only [scheduleNextRow, Option.some.injEq] at hs
    omega
  · intro now0 margin prev hprev hdue hmargin hnow
    unfold periodicDue at hdue
    rw [hprev] at hdue
    simp only [Bool.and_eq_true, decide_eq_true_eq] at hdue
    omega

/-- Witness for the amended C8: a row due at 95, fetched at `now0 = 100` with
`margin = 10 ≤ period = 60`, advanced at `now = 101`, moves forward to 161. -/
theorem schedule_next_task_execution_spec_witness :
    (scheduleNextRow 101 ⟨1, "p", 60, some 95, 0, 0⟩).scheduled_at = some 161 ∧
    (scheduleNextRow 101 ⟨1, "p", 60, some 95, 0, 0⟩).updated_at = 101 ∧
    (95 : Int) ≤ 161 := by
  refine ⟨(schedule_next_task_execution_spec 101 ⟨1, "p", 60, some 95, 0, 0⟩ []).2.1.trans
    (by decide), (schedule_next_task_execution_spec 101 ⟨1, "p", 60, some 95, 0, 0⟩ []).2.2.1, ?_⟩
  exact (schedule_next_task_execution_spec 101 ⟨1, "p", 60, some 95, 0, 0⟩ []).2.2.2.1
    95 rfl ((schedule_next_task_execution_spec 101 ⟨1, "p", 60, some 95, 0, 0⟩ []).2.2.2.2
      100 10 95 rfl (by decide) (by decide) (by decide)) 161
    ((schedule_next_task_execution_spec 101 ⟨1, "p", 60, some 95, 0, 0⟩ []).2.1.trans (by decide))

/-- C9 — on a scheduler pass, a periodic row with null `scheduled_at` only
gets `schedule_next_task_execution` applied (seeding the first firing at
`now + period`) and pushes no one-shot task (the one-shot table is returned
unchanged); only a row with non-null `scheduled_at` causes a `push_task`,
followed by the advance. -/
theorem process_task_spec (deser : String → Job) (now : Int) (freshId : Nat)
    (taskTable : List Task) (periodicTable : List PeriodicTask)
    (t : PeriodicTask) :
    (t.scheduled_at = none →
      process_task deser now freshId taskTable periodicTable t =
        (taskTable, (schedule_next_task_execution now t periodicTable).2) ∧
      (scheduleNextRow now t).scheduled_at = some (now + t.period_in_seconds)) ∧
    (∀ s, t.scheduled_at = some s →
      process_task deser now freshId taskTable periodicTable t =
        ((push_task_query now freshId (deser t.metadata) taskTable).2,
         (schedule_next_task_execution now t periodicTable).2)) := by
  constructor
  · intro h
    refine ⟨?_, rfl⟩
    unfold process_task
    rw [h]
  · intro s h
    unfold process_task
    rw [h]

/-- Witness for C9: a never-fired periodic row (null `scheduled_at`) is seeded
to fire at `now + period` while the one-shot table stays empty. -/
theorem process_task_spec_witness :
    process_task (fun m => ⟨m, "common"⟩) 40 9 []
      [⟨1, "p", 60, none, 0, 0⟩] ⟨1, "p", 60, none, 0, 0⟩ =
      ([], [⟨1, "p", 60, some 100, 0, 40⟩]) ∧
    (scheduleNextRow 40 (⟨1, "p", 60, none, 0, 0⟩ : PeriodicTask)).scheduled_at =
      some 100 := by
  have h := (process_task_spec (fun m => ⟨m, "common"⟩) 40 9 []
    [⟨1, "p", 60, none, 0, 0⟩] ⟨1, "p", 60, none, 0, 0⟩).1 rfl
  exact ⟨h.1.trans (by decide), h.2.trans (by decide)⟩

/-- C10 — if `push_periodic_task(j, p1)` inserted a row (no prior row had
`j`'s metadata) then a later `push_periodic_task(j, p2)` returns that stored
row and changes nothing: the table is untouched and the returned row still
carries `period_in_seconds = p1`, `scheduled_at = null` and its original
timestamps — the second call's period argument has no effect. -/
theorem push_periodic_task_query_frame (now1 now2 : Int) (id1 id2 : Nat)
    (job : Job) (p1 p2 : Int) (table : List PeriodicTask)
    (hfresh : ∀ t ∈ table, t.metadata ≠ job.metadata) :
    push_periodic_task_query now1 id1 job p1 table =
      (insertPeriodicRow now1 id1 job.metadata p1,
       table ++ [insertPeriodicRow now1 id1 job.metadata p1]) ∧
    push_periodic_task_query now2 id2 job p2
        (table ++ [insertPeriodicRow now1 id1 job.metadata p1]) =
      (insertPeriodicRow now1 id1 job.metadata p1,
       table ++ [insertPeriodicRow now1 id1 job.metadata p1]) ∧
    (insertPeriodicRow now1 id1 job.metadata p1).period_in_seconds = p1 ∧
    (insertPeriodicRow now1 id1 job.metadata p1).scheduled_at = none ∧
    (insertPeriodicRow now1 id1 job.metadata p1).created_at = now1 ∧
    (insertPeriodicRow now1 id1 job.metadata p1).updated_at = now1 := by
  have hnone : find_periodic_task_by_metadata_query job.metadata table = none := by
    apply List.find?_eq_none.2
    intro t ht
    simp only [decide_eq_true_eq]
    exact hfresh t ht
  have hfind2 : find_periodic_task_by_metadata_query job.metadata
      (table ++ [insertPeriodicRow now1 id1 job.metadata p1]) =
      some (insertPeriodicRow now1 id1 job.metadata p1) := by
    unfold find_periodic_task_by_metadata_query at hnone ⊢
    rw [List.find?_append, hnone]
    simp [List.find?, insertPeriodicRow]
  refine ⟨?_, ?_, rfl, rfl, rfl, rfl⟩
  · simp [push_periodic_task_query, hnone]
  · simp [push_periodic_task_query, hfind2]

/-- Witness for C10: pushing `j` with period 60 into an empty table then
pushing `j` again with period 120 returns the stored row, whose period is
still 60, with nothing changed. -/
theorem push_periodic_task_query_frame_witness :
    push_periodic_task_query 1 5 ⟨"j", "common"⟩ 60 [] =
      (⟨5, "j", 60, none, 1, 1⟩, [⟨5, "j", 60, none, 1, 1⟩]) ∧
    push_periodic_task_query 2 6 ⟨"j", "common"⟩ 120 [⟨5, "j", 60, none, 1, 1⟩] =
      (⟨5, "j", 60, none, 1, 1⟩, [⟨5, "j", 60, none, 1, 1⟩]) := by
  have h := push_periodic_task_query_frame 1 2 5 6 ⟨"j", "common"⟩ 60 120 []
    (by intro t ht; cases ht)
  exact ⟨h.1.trans rfl, h.2.1.trans rfl⟩

/-- The `maybe_reset_sleep_period` always lands on `min_sleep_period` (both
branches of its guard do). -/
theorem maybe_reset_sleep_period_spec (p : SleepParams) :
    (maybe_reset_sleep_period p).sleep_period = p.min_sleep_period := by
  rcases eq_or_ne p.sleep_period p.min_sleep_period with h | h <;>
    simp [maybe_reset_sleep_period, h]

/-- C5 counterexample — with default `SleepParams`, an iteration that DID
fetch a task but whose job run failed does not reset the back-off: `run(task)`
propagates the error through `run_task`'s `?`, the `Err` branch of `run_tasks`
sleeps, and `sleep_period` grows from 5 to 10 instead of resetting to
`min_sleep_period = 5`. -/
theorem run_failed_no_reset_counterexample :
    runInvoked FetchOutcome.fetchedRunFailed = true ∧
    (run_tasks_iteration FetchOutcome.fetchedRunFailed SleepParams.default).1.sleep_period = 10 ∧
    SleepParams.default.min_sleep_period = 5 ∧
    (run_tasks_iteration FetchOutcome.fetchedRunFailed SleepParams.default).2 = some 10 := by
  decide

/-- C5 (amended) — `run(task)` is invoked exactly when `fetch_and_touch`
returned a task; when the run (execute + finalize) succeeds, `run_task`
returns `Ok(Some _)` and the iteration resets `sleep_period` to
`min_sleep_period` without sleeping; when the run fails, the error propagates
out of `run_task` and the iteration sleeps with back-off growth instead of
resetting. -/
theorem run_tasks_iteration_spec (o : FetchOutcome) (p : SleepParams) :
    (runInvoked o = true ↔
      (o = FetchOutcome.fetchedOk ∨ o = FetchOutcome.fetchedRunFailed)) ∧
    (o = FetchOutcome.fetchedOk →
      run_task o = RunTaskResult.okSome ∧
      (run_tasks_iteration o p).1.sleep_period = p.min_sleep_period ∧
      (run_tasks_iteration o p).2 = none) ∧
    (o = FetchOutcome.fetchedRunFailed →
      run_task o = RunTaskResult.err ∧
      run_tasks_iteration o p =
        (maybe_increase_sleep_period p,
         some (maybe_increase_sleep_period p).sleep_period)) := by
  refine ⟨?_, ?_, ?_⟩
  · cases o <;> simp [runInvoked]
  · rintro rfl
    exact ⟨rfl, maybe_reset_sleep_period_spec p, rfl⟩
  · rintro rfl
    exact ⟨rfl, rfl⟩

/-- Witness for the amended C5: with default params at `sleep_period = 10`, a
successful productive iteration resets to 5 and does not sleep. -/
theorem run_tasks_iteration_spec_witness :
    (run_tasks_iteration FetchOutcome.fetchedOk ⟨10, 15, 5, 5⟩).1.sleep_period = 5 ∧
    (run_tasks_iteration FetchOutcome.fetchedOk ⟨10, 15, 5, 5⟩).2 = none ∧
    runInvoked FetchOutcome.fetchedOk = true := by
  have h := (run_tasks_iteration_spec FetchOutcome.fetchedOk ⟨10, 15, 5, 5⟩).2.1 rfl
  exact ⟨h.2.1, h.2.2,
    (run_tasks_iteration_spec FetchOutcome.fetchedOk ⟨10, 15, 5, 5⟩).1.2 (Or.inl rfl)⟩

/-- C6 counterexample — take `min = 1`, `max = 2`, `step = 2` and
`sleep_period = min = 1`. The claim predicts that one unproductive iteration
sleeps for the current period (1s) and then sets
`sleep_period = min(1 + 2, 2) = 2`. The code instead grows first and sleeps
after: it sets `sleep_period = 1 + 2 = 3` — exceeding `max_sleep_period` —
and sleeps for 3 seconds. -/
theorem sleep_backoff_counterexample :
    (run_tasks_iteration FetchOutcome.noTask ⟨1, 2, 1, 2⟩).1.sleep_period = 3 ∧
    (run_tasks_iteration FetchOutcome.noTask ⟨1, 2, 1, 2⟩).2 = some 3 ∧
    min (1 + 2) 2 = 2 ∧ (3 : Nat) ≠ 2 ∧ (3 : Nat) > 2 ∧ (3 : Nat) ≠ 1 := by
  decide

/-- Number of unproductive iterations after which the back-off saturates when
starting from `m`: the least `n` with `m + n * s ≥ M`, i.e. `⌈(M - m) / s⌉`. -/
def satSteps (m M s : Nat) : Nat := (M - m + s - 1) / s

theorem satSteps_lt (m M s k : Nat) (hs : 0 < s) (hk : k < satSteps m M s) :
    m + k * s < M := by
  unfold satSteps at hk
  have h2 : (k + 1) * s ≤ M - m + s - 1 := (Nat.le_div_iff_mul_le hs).1 hk
  have hMm : m < M := by
    rcases Nat.lt_or_ge m M with h | h
    · exact h
    · exfalso
      have hz : M - m = 0 := Nat.sub_eq_zero_of_le h
      rw [hz] at hk
      have hzero : (0 + s - 1) / s = 0 := Nat.div_eq_of_lt (by omega)
      omega
  have h3 : (k + 1) * s = k * s + s := by ring
  rw [h3] at h2
  revert h2
  generalize k * s = t
  intro h2
  omega

theorem satSteps_ge (m M s : Nat) (hs : 0 < s) :
    M ≤ m + satSteps m M s * s := by
  unfold satSteps
  rcases Nat.le_total M m with h | h
  · exact le_trans h (Nat.le_add_right m _)
  · have hd := Nat.div_add_mod (M - m + s - 1) s
    have hm := Nat.mod_lt (M - m + s - 1) hs
    rw [Nat.mul_comm] at hd
    revert hd hm
    generalize (M - m + s - 1) / s = q
    generalize (M - m + s - 1) % s = r
    intro hd hm
    revert hd
    generalize q * s = t
    intro hd
    omega

theorem maybe_increase_fields (p : SleepParams) :
    (maybe_increase_sleep_period p).min_sleep_period = p.min_sleep_period ∧
    (maybe_increase_sleep_period p).max_sleep_period = p.max_sleep_period ∧
    (maybe_increase_sleep_period p).sleep_step = p.sleep_step := by
  unfold maybe_increase_sleep_period
  split <;> exact ⟨rfl, rfl, rfl⟩

theorem maybe_increase_closed (m M s : Nat) (hs : 0 < s) (p : SleepParams)
    (k : Nat) (_h1 : p.min_sleep_period = m) (h2 : p.max_sleep_period = M)
    (h3 : p.sleep_step = s)
    (h4 : p.sleep_period = m + min k (satSteps m M s) * s) :
    (maybe_increase_sleep_period p).sleep_period =
      m + min (k + 1) (satSteps m M s) * s := by
  unfold maybe_increase_sleep_period
  by_cases hk : k < satSteps m M s
  · have hmin : min k (satSteps m M s) = k := Nat.min_eq_left (Nat.le_of_lt hk)
    have hlt : p.sleep_period < p.max_sleep_period := by
      rw [h2, h4, hmin]
      exact satSteps_lt m M s k hs hk
    rw [if_pos hlt]
    show p.sleep_period + p.sleep_step = _
    rw [h3, h4, hmin, Nat.min_eq_left (Nat.succ_le_of_lt hk),
      Nat.succ_eq_add_one]
    ring
  · push_neg at hk
    have hmin : min k (satSteps m M s) = satSteps m M s := Nat.min_eq_right hk
    have hge : ¬ p.sleep_period < p.max_sleep_period := by
      rw [h2, h4, hmin]
      exact Nat.not_lt.2 (satSteps_ge m M s hs)
    rw [if_neg hge]
    rw [h4, hmin, Nat.min_eq_right (le_trans hk (Nat.le_succ k))]

theorem unproductiveIters_closed (m M s : Nat) (hs : 0 < s) (K : Nat) :
    ∀ (p : SleepParams) (k : Nat),
      p.min_sleep_period = m → p.max_sleep_period = M → p.sleep_step = s →
      p.sleep_period = m + min k (satSteps m M s) * s →
      (unproductiveIters p K).sleep_period =
        m + min (k + K) (satSteps m M s) * s := by
  induction K with
  | zero =>
    intro p k h1 h2 h3 h4
    simpa [unproductiveIters] using h4
  | succ n ih =>
    intro p k h1 h2 h3 h4
    show (unproductiveIters (maybe_increase_sleep_period p) n).sleep_period = _
    have hf := maybe_increase_fields p
    have hres := ih (maybe_increase_sleep_period p) (k + 1)
      (hf.1.trans h1) (hf.2.1.trans h2) (hf.2.2.trans h3)
      (maybe_increase_closed m M s hs p k h1 h2 h3 h4)
    rw [hres]
    have hadd : k + 1 + n = k + (n + 1) := by ring
    rw [hadd]

/-- C6 (amended) — on every unproductive iteration (no task fetched, or a
DB error) the executor FIRST updates `sleep_period` — adding `sleep_step`
whenever `sleep_period < max_sleep_period`, with no clamping, so the result
may overshoot `max_sleep_period` by up to `sleep_step - 1 + anything` the last
increment adds — and THEN sleeps for the updated `sleep_period`.
Consequently, starting from `sleep_period = min_sleep_period`, after `K`
consecutive unproductive iterations,
`sleep_period = min_sleep_period + min(K, ⌈(max − min)/step⌉)·step` (for
`step > 0`); it stops growing once it reaches at least `max_sleep_period`,
but its final value can strictly exceed `max_sleep_period`. -/
theorem sleep_backoff_spec (p : SleepParams) (K : Nat)
    (hs : 0 < p.sleep_step) (hstart : p.sleep_period = p.min_sleep_period) :
    (∀ o, (o = FetchOutcome.noTask ∨ o = FetchOutcome.fetchDbError) →
      run_tasks_iteration o p =
        (maybe_increase_sleep_period p,
         some (maybe_increase_sleep_period p).sleep_period)) ∧
    (unproductiveIters p K).sleep_period = p.min_sleep_period +
      min K (satSteps p.min_sleep_period p.max_sleep_period p.sleep_step) *
        p.sleep_step := by
  constructor
  · rintro o (rfl | rfl) <;> rfl
  · have h := unproductiveIters_closed p.min_sleep_period p.max_sleep_period
      p.sleep_step hs K p 0 rfl rfl rfl (by simpa using hstart)
    simpa using h

/-- Witness for the amended C6 at the default params (5, 15, 5, 5): the
saturation count is ⌈(15−5)/5⌉ = 2, so after 4 unproductive iterations
`sleep_period = 5 + min(4,2)·5 = 15`, and a single unproductive iteration
from the start sleeps 10s (the already-grown period). -/
theorem sleep_backoff_spec_witness :
    (unproductiveIters SleepParams.default 4).sleep_period = 15 ∧
    run_tasks_iteration FetchOutcome.noTask SleepParams.default =
      (⟨10, 15, 5, 5⟩, some 10) := by
  constructor
  · exact ((sleep_backoff_spec SleepParams.default 4 (by decide) rfl).2).trans (by decide)
  · exact ((sleep_backoff_spec SleepParams.default 1 (by decide) rfl).1
      FetchOutcome.noTask (Or.inl rfl)).trans (by decide)

end Fang
